import Mathlib

/-!
# Settings authorization and registered-client CLI

A shallow embedding of

* `app/user_settings.go`  (`userSettingsCommon`, `userSettingsMeRedirect`,
  `serveUserSettingsProfile`, `serveUserSettingsProfileAvatar`),
* `cli/registered_clients.go` (the `list`, `create` and `update` subcommands),
* `cli/internal/loghandlers/loghandlers.go` (`Noisey`).

Go functions that talk to collaborators (the backend client, the router, the
file system) are embedded as pure functions that take the collaborators as
parameters and return, next to the Go return values, the ordered list of
calls they made.
-/

set_option autoImplicit false

namespace Sourcegraph

/-! ## Go maps of type `map[string]string` -/

/-- A Go `map[string]string`, kept as the list of its entries. -/
structure GoMap where
  entries : List (String × String)
  deriving DecidableEq, Repr

namespace GoMap

/-- The map built by `make(map[string]string)` or `map[string]string{}`. -/
def empty : GoMap := ⟨[]⟩

/-- The two-valued read `v, ok := m[k]`. -/
def lookup? (m : GoMap) (k : String) : Option String :=
  m.entries.lookup k

/-- The one-valued read `m[k]`: a missing key reads as the zero value `""`. -/
def index (m : GoMap) (k : String) : String :=
  (m.lookup? k).getD ""

/-- Entries after the write `m[k] = v`. -/
def assignEntries (k v : String) : List (String × String) → List (String × String)
  | [] => [(k, v)]
  | (k', v') :: rest =>
    if k' == k then (k, v) :: rest else (k', v') :: assignEntries k v rest

/-- The write `m[k] = v`. -/
def assign (m : GoMap) (k v : String) : GoMap :=
  ⟨assignEntries k v m.entries⟩

end GoMap

/-! ## `app/user_settings.go` -/

namespace App

/-- The fields of `sourcegraph.UserSpec` the handlers read. -/
structure UserSpec where
  Login : String
  UID : Int
  deriving DecidableEq, Repr

/-- The zero value `sourcegraph.UserSpec{}`. -/
def UserSpec.zero : UserSpec := ⟨"", 0⟩

/-- The fields of `sourcegraph.User` the handlers read or write. -/
structure User where
  UID : Int
  Login : String
  Name : String
  IsOrganization : Bool
  AvatarURL : String
  deriving DecidableEq, Repr

/-- A `sourcegraph.Org`: it embeds a `User`. -/
structure Org where
  User : User
  deriving DecidableEq, Repr

/-- The struct `userSettingsCommonData`. -/
structure userSettingsCommonData where
  User : User
  OrgsAndSelf : List App.User
  deriving DecidableEq, Repr

/-- gRPC status code `codes.PermissionDenied`. -/
def codes.PermissionDenied : Nat := 7

/-- gRPC status code `codes.Unimplemented`. -/
def codes.Unimplemented : Nat := 12

/-- HTTP status `http.StatusFound`. -/
def http.StatusFound : Nat := 302

/-- HTTP status `http.StatusSeeOther`. -/
def http.StatusSeeOther : Nat := 303

/-- HTTP status `http.StatusUnauthorized`. -/
def http.StatusUnauthorized : Nat := 401

/-- HTTP status `http.StatusForbidden`. -/
def http.StatusForbidden : Nat := 403

/-- The Go `error` values that occur in the handlers. -/
inductive Error where
  /-- The sentinel `errUserSettingsCommonWroteResponse`. -/
  | wroteResponse
  /-- An `&errcode.HTTPErr{Status: status, Err: errors.New(msg)}` built in this file. -/
  | httpErr (status : Nat) (msg : String)
  /-- An error handed back by a collaborator, with the gRPC code it carries. -/
  | ext (code : Nat) (msg : String)
  deriving DecidableEq, Repr

/-- The gRPC code of an error (`errcode.GRPC`, `grpc.Code`): `OK` (0) for `nil`,
the carried code for a backend error, `Unknown` (2) otherwise. -/
def grpcCode : Option Error → Nat
  | none => 0
  | some (.ext code _) => code
  | some _ => 2

/-- What the handlers read from `*http.Request`. -/
structure Request where
  /-- The result of `handlerutil.UserFromRequest(r)`; `none` is the nil pointer. -/
  currentUser : Option UserSpec
  /-- The route variables `mux.Vars(r)`. -/
  vars : GoMap
  /-- The route name `httpctx.RouteName(r)`. -/
  routeName : String
  /-- The request method `r.Method`. -/
  method : String
  /-- The form reader `r.PostFormValue`. -/
  postFormValue : String → String

/-- The calls a handler makes on its collaborators, in order. -/
inductive Event where
  /-- A call of `authutil.RedirectToLogIn(w, r)`. -/
  | redirectToLogIn
  /-- A call of `http.Redirect` to `router.Rel.URLTo(route, vars...)`. -/
  | redirect (route : String) (vars : GoMap) (status : Nat)
  /-- A call of `getUser(ctx, r)`. -/
  | getUser
  /-- A call of `cl.Orgs.List` with the given member UID and page size. -/
  | orgsList (member : Int) (perPage : Nat)
  /-- A call of `cl.Users.ListEmails`. -/
  | listEmails (spec : UserSpec)
  /-- A call of `cl.Accounts.Update`. -/
  | accountsUpdate (user : User)
  /-- A call of `tmpl.Exec` on the named template. -/
  | tmplExec (name : String)
  deriving DecidableEq, Repr

/-- The collaborators of the handlers: functions of this repository and of its
libraries that are not part of the embedded file. -/
structure Env where
  /-- Outcome of `authutil.RedirectToLogIn(w, r)`: `none` is a nil error. -/
  redirectToLogIn : Request → Option Error
  /-- The parser `sourcegraph.ParseUserSpec`. -/
  parseUserSpec : String → Except Error UserSpec
  /-- The resolver `getUser(ctx, r)`. -/
  getUser : Request → Except Error (User × UserSpec)
  /-- The backend call `cl.Orgs.List` for a member UID. -/
  orgsList : Int → Except Error (List Org)
  /-- The backend call `cl.Users.ListEmails`. -/
  listEmails : UserSpec → Except Error (List String)
  /-- The backend call `cl.Accounts.Update`: `none` is a nil error. -/
  accountsUpdate : User → Option Error
  /-- Outcome of `tmpl.Exec` on the named template. -/
  tmplExec : String → Option Error
  /-- The library function `strings.TrimSpace`. -/
  trimSpace : String → String
  /-- The library function `strings.ToLower`. -/
  toLower : String → String
  /-- Hex MD5 digest of a string (`crypto/md5` printed with `%x`). -/
  md5hex : String → String
  /-- The route name constant `router.UserSettingsProfile`. -/
  routeUserSettingsProfile : String

/-- The three Go return values of `userSettingsCommon`, with the calls made. -/
structure CommonResult where
  userSpec : UserSpec
  data : Option userSettingsCommonData
  err : Option Error
  trace : List Event
  deriving DecidableEq, Repr

/-- The loop `for k, v := range vars { varsCopy[k] = vars[v] }` over the
entries of `vars`. -/
def copyVars (vars : GoMap) : GoMap :=
  vars.entries.foldl (fun varsCopy kv => varsCopy.assign kv.1 (vars.index kv.2)) GoMap.empty

/-- The function `userSettingsMeRedirect(w, r, u)`: the returned error and the calls made. -/
def userSettingsMeRedirect (env : Env) (r : Request) (u : Option UserSpec) :
    Option Error × List Event :=
  match u with
  | none => (none, [])
  | some u =>
    let vars := r.vars
    match env.parseUserSpec (vars.index "User") with
    | .ok userSpec_ =>
      if userSpec_.Login == ".me" then
        let varsCopy := copyVars vars
        let varsCopy := varsCopy.assign "User" u.Login
        (some .wroteResponse, [.redirect r.routeName varsCopy http.StatusFound])
      else (none, [])
    | .error _ => (none, [])

/-- The loop that sets `currentUserCanAdminOrg`. -/
def currentUserCanAdminOrg (p : User) : List User → Bool
  | [] => false
  | adminable :: rest =>
    if p.UID == adminable.UID then true else currentUserCanAdminOrg p rest

/-- The tail of `userSettingsCommon` from the building of `orgsAndSelf` on. -/
def userSettingsCommonDecide (p : User) (userSpec : UserSpec) (orgs : List Org)
    (trace : List Event) : CommonResult :=
  let orgsAndSelf := [p] ++ orgs.map (fun org => org.User)
  if !currentUserCanAdminOrg p orgsAndSelf then
    ⟨userSpec, none,
      some (.httpErr http.StatusForbidden "only a user or an org admin can view/edit profile"),
      trace⟩
  else
    ⟨userSpec, some ⟨p, orgsAndSelf⟩, none, trace⟩

/-- The function `userSettingsCommon(w, r)`. -/
def userSettingsCommon (env : Env) (r : Request) : CommonResult :=
  match r.currentUser with
  | none =>
    match env.redirectToLogIn r with
    | some err => ⟨UserSpec.zero, none, some err, [.redirectToLogIn]⟩
    | none => ⟨UserSpec.zero, none, some .wroteResponse, [.redirectToLogIn]⟩
  | some currentUser =>
    let (err, t1) := userSettingsMeRedirect env r (some currentUser)
    if err == some .wroteResponse then ⟨UserSpec.zero, none, err, t1⟩
    else
      match env.getUser r with
      | .error err => ⟨UserSpec.zero, none, some err, t1 ++ [.getUser]⟩
      | .ok (p, userSpec) =>
        if currentUser.UID != userSpec.UID then
          ⟨UserSpec.zero, none,
            some (.httpErr http.StatusUnauthorized "must be logged in as the requested user"),
            t1 ++ [.getUser]⟩
        else
          let t2 := t1 ++ [.getUser, .orgsList currentUser.UID 100]
          match env.orgsList currentUser.UID with
          | .ok orgs => userSettingsCommonDecide p userSpec orgs t2
          | .error err =>
            if grpcCode (some err) == codes.Unimplemented then
              userSettingsCommonDecide p userSpec [] t2
            else ⟨userSpec, none, some err, t2⟩

/-- How a handler call ends: it returns an `error`, or it panics on a nil
pointer dereference. -/
inductive Outcome where
  | returned (err : Option Error)
  | panicked
  deriving DecidableEq, Repr

/-- The function `gravatarURL(email)`. -/
def gravatarURL (env : Env) (email : String) : String :=
  let email := env.trimSpace email
  let email := env.toLower email
  "https://secure.gravatar.com/avatar/" ++ env.md5hex email ++ "?d=mm"

/-- The handler `serveUserSettingsProfile(w, r)`: how it ends and the calls made. -/
def serveUserSettingsProfile (env : Env) (r : Request) : Outcome × List Event :=
  let c := userSettingsCommon env r
  if c.err == some .wroteResponse then (.returned none, c.trace)
  else
    match c.err with
    | some err => (.returned (some err), c.trace)
    | none =>
      let userSpec := c.userSpec
      let t1 := c.trace ++ [.listEmails userSpec]
      let err : Option Error :=
        match env.listEmails userSpec with
        | .ok _ => none
        | .error e => some e
      match c.data with
      | none =>
        -- every path from here reads `cd.User` or `*cd` before the next call
        (.panicked, t1)
      | some cd =>
        if (err.isSome || cd.User.IsOrganization) &&
            !(grpcCode err == codes.PermissionDenied || cd.User.IsOrganization) then
          (.returned err, t1)
        else if r.method == "POST" then
          let user := { cd.User with Name := r.postFormValue "Name" }
          let t2 := t1 ++ [.accountsUpdate user]
          match env.accountsUpdate user with
          | some err => (.returned (some err), t2)
          | none =>
            (.returned none,
              t2 ++ [.redirect env.routeUserSettingsProfile
                ⟨[("User", user.Login)]⟩ http.StatusSeeOther])
        else
          (.returned (env.tmplExec "user/settings/profile.html"),
            t1 ++ [.tmplExec "user/settings/profile.html"])

/-- The handler `serveUserSettingsProfileAvatar(w, r)`: how it ends and the calls made. -/
def serveUserSettingsProfileAvatar (env : Env) (r : Request) : Outcome × List Event :=
  let c := userSettingsCommon env r
  if c.err == some .wroteResponse then (.returned none, c.trace)
  else
    match c.err with
    | some err => (.returned (some err), c.trace)
    | none =>
      match c.data with
      | none => (.panicked, c.trace)
      | some cd =>
        let email := r.postFormValue "GravatarEmail"
        let user := { cd.User with AvatarURL := gravatarURL env email }
        let t1 := c.trace ++ [.accountsUpdate user]
        match env.accountsUpdate user with
        | some err => (.returned (some err), t1)
        | none =>
          (.returned none,
            t1 ++ [.redirect env.routeUserSettingsProfile
              ⟨[("User", user.Login)]⟩ http.StatusSeeOther])

/-- The `cl.Accounts.Update` calls in a list of calls. -/
def accountsUpdateCalls (trace : List Event) : List User :=
  trace.filterMap fun e =>
    match e with
    | .accountsUpdate u => some u
    | _ => none

/-- The `cl.Orgs.List` calls in a list of calls, by member UID. -/
def orgsListCalls (trace : List Event) : List Int :=
  trace.filterMap fun e =>
    match e with
    | .orgsList m _ => some m
    | _ => none

end App

/-! ## `cli/registered_clients.go` -/

namespace Cli

/-- The struct `sourcegraph.RegisteredClient`; `Meta = none` is the nil map. -/
structure RegisteredClient where
  ID : String
  ClientName : String
  ClientURI : String
  RedirectURIs : List String
  Description : String
  JWKS : String
  Type_ : Int
  Meta : Option GoMap
  CreatedAt : Int
  deriving DecidableEq, Repr

/-- The struct `sourcegraph.RegisteredClientList`. -/
structure RegisteredClientList where
  Clients : List RegisteredClient
  HasMore : Bool
  deriving DecidableEq, Repr

/-- The Go `error` values that occur in the subcommands. -/
inductive Error where
  /-- The error `fmt.Errorf("invalid --type %q; choices are %+v", typ, ...)`. -/
  | invalidType (typ : String)
  /-- An error handed back by a collaborator. -/
  | ext (msg : String)
  deriving DecidableEq, Repr

/-- The calls a subcommand makes on its collaborators, in order. -/
inductive Event where
  /-- A call of `cl.RegisteredClients.List` with `opt.Page = page`. -/
  | list (page : Int)
  /-- A call of `printRegisteredClient`. -/
  | printRegisteredClient (c : RegisteredClient)
  /-- The summary line `fmt.Printf` writes for a client: ID and creation time. -/
  | printSummary (id : String) (createdAt : Int)
  /-- A call of `cl.RegisteredClients.Get`. -/
  | get (id : String)
  /-- A call of `fmt.Print` or `fmt.Println`. -/
  | print (s : String)
  /-- A call of `log.Printf` or `log.Println`. -/
  | log (s : String)
  /-- A call of `cl.RegisteredClients.Update`. -/
  | update (rc : RegisteredClient)
  /-- A call of `ioutil.ReadFile`. -/
  | readFile (path : String)
  /-- A call of `idkey.New`. -/
  | idkeyNew (data : String)
  /-- A call of `idKey.MarshalJWKSPublicKey`. -/
  | marshalJWKS
  /-- A call of `cl.RegisteredClients.Create`. -/
  | create (rc : RegisteredClient)
  deriving DecidableEq, Repr

/-- The flag of `regClientsListCmd`. -/
structure regClientsListCmd where
  Detail : Bool
  deriving DecidableEq, Repr

/-- A Go `int32` after an addition: the value wrapped into `[-2^31, 2^31)`. -/
def wrapInt32 (x : Int) : Int := (x + 2147483648) % 4294967296 - 2147483648

/-- What the body of the client loop of `regClientsListCmd.Execute` emits for one client. -/
def listEmit (detail : Bool) (client : RegisteredClient) : Event :=
  if detail then .printRegisteredClient client
  else .printSummary client.ID client.CreatedAt

/-- The `for` loop of `regClientsListCmd.Execute`, started at page `page` with the
calls `trace` already made. A Go `for {}` need not end, so the loop runs on fuel:
`none` means the fuel ran out before the loop ended. -/
def listLoop (detail : Bool) (list : Int → Except Error RegisteredClientList) :
    Nat → Int → List Event → Option (Option Error × List Event)
  | 0, _, _ => none
  | fuel + 1, page, trace =>
    match list page with
    | .error err => some (some err, trace ++ [.list page])
    | .ok clients =>
      let trace := trace ++ [.list page] ++ clients.Clients.map (listEmit detail)
      if !clients.HasMore then some (none, trace)
      else listLoop detail list fuel (wrapInt32 (page + 1)) trace

/-- The method `regClientsListCmd.Execute`: `list` is the backend call
`cl.RegisteredClients.List` as a function of the page number `opt.Page`. -/
def regClientsListCmd.Execute (c : regClientsListCmd)
    (list : Int → Except Error RegisteredClientList) (fuel : Nat) :
    Option (Option Error × List Event) :=
  listLoop c.Detail list fuel 1 []

/-- The page numbers of the `List` calls in a list of calls. -/
def requestedPages (trace : List Event) : List Int :=
  trace.filterMap fun e =>
    match e with
    | .list page => some page
    | _ => none

/-- The clients written to the output in a list of calls: the whole record in
detail mode, the printed ID and creation time otherwise. -/
def emittedClients (trace : List Event) : List (RegisteredClient ⊕ (String × Int)) :=
  trace.filterMap fun e =>
    match e with
    | .printRegisteredClient c => some (.inl c)
    | .printSummary id createdAt => some (.inr (id, createdAt))
    | _ => none

/-- The clients of a page, as `emittedClients` shows them; an erroring page has none. -/
def pageClients (detail : Bool) (list : Int → Except Error RegisteredClientList) (page : Int) :
    List (RegisteredClient ⊕ (String × Int)) :=
  match list page with
  | .ok clients =>
    clients.Clients.map fun c => if detail then .inl c else .inr (c.ID, c.CreatedAt)
  | .error _ => []

/-- The calls one round of the loop makes for a page: the `List` call, then one
output call per client of the page. -/
def pageTrace (detail : Bool) (list : Int → Except Error RegisteredClientList) (page : Int) :
    List Event :=
  match list page with
  | .ok clients => [.list page] ++ clients.Clients.map (listEmit detail)
  | .error _ => [.list page]

/-- The error a page returns, `none` when the call succeeds. -/
def pageError (list : Int → Except Error RegisteredClientList) (page : Int) : Option Error :=
  match list page with
  | .ok _ => none
  | .error err => some err

/-- The flags of `regClientsCreateCmd`. -/
structure regClientsCreateCmd where
  ClientName : String
  ClientURI : String
  RedirectURI : String
  Description : String
  Type_ : String
  IDKeyFile : String
  deriving DecidableEq, Repr

/-- What `regClientsCreateCmd.Execute` uses of an `*idkey.IDKey`: its `ID` and the
result of `MarshalJWKSPublicKey()`. -/
structure IDKey where
  ID : String
  jwks : Except Error String

/-- The collaborators of `regClientsCreateCmd.Execute`. -/
structure CreateEnv where
  /-- The table `sourcegraph.RegisteredClientType_value`, a Go `map[string]int32`. -/
  RegisteredClientType_value : List (String × Int)
  /-- The library function `os.ExpandEnv`. -/
  expandEnv : String → String
  /-- The library function `ioutil.ReadFile`. -/
  readFile : String → Except Error String
  /-- The constructor `idkey.New`. -/
  idkeyNew : String → Except Error IDKey
  /-- The backend call `cl.RegisteredClients.Create`. -/
  create : RegisteredClient → Except Error RegisteredClient

/-- The method `regClientsCreateCmd.Execute`: the returned error and the calls made. -/
def regClientsCreateCmd.Execute (env : CreateEnv) (c : regClientsCreateCmd) :
    Option Error × List Event :=
  match env.RegisteredClientType_value.lookup c.Type_ with
  | none => (some (.invalidType c.Type_), [])
  | some typ =>
    let idKeyFile := env.expandEnv c.IDKeyFile
    let t1 := [Event.readFile idKeyFile]
    match env.readFile idKeyFile with
    | .error err => (some err, t1)
    | .ok data =>
      let t2 := t1 ++ [.idkeyNew data]
      match env.idkeyNew data with
      | .error err => (some err, t2)
      | .ok idKey =>
        let t3 := t2 ++ [.log ("# Using public key from file " ++ idKeyFile), .marshalJWKS]
        match idKey.jwks with
        | .error err => (some err, t3)
        | .ok jwks =>
          let regClient : RegisteredClient :=
            { ID := idKey.ID
              ClientName := c.ClientName
              ClientURI := c.ClientURI
              RedirectURIs := []
              Description := c.Description
              JWKS := jwks
              Type_ := typ
              Meta := none
              CreatedAt := 0 }
          let regClient :=
            if c.RedirectURI != "" then { regClient with RedirectURIs := [c.RedirectURI] }
            else regClient
          let t4 := t3 ++ [.create regClient]
          match env.create regClient with
          | .error err => (some err, t4)
          | .ok regClient =>
            (none, t4 ++ [.log "# Registered API client:", .printRegisteredClient regClient])

/-- The `cl.RegisteredClients.Create` calls in a list of calls. -/
def createCalls (trace : List Event) : List RegisteredClient :=
  trace.filterMap fun e =>
    match e with
    | .create rc => some rc
    | _ => none

/-- The `ioutil.ReadFile` calls in a list of calls. -/
def readFileCalls (trace : List Event) : List String :=
  trace.filterMap fun e =>
    match e with
    | .readFile path => some path
    | _ => none

/-- The flags and the positional argument of `regClientsUpdateCmd`. -/
structure regClientsUpdateCmd where
  ClientName : String
  ClientURI : String
  RedirectURI : String
  Description : String
  AllowLogins : String
  ClientID : String
  deriving DecidableEq, Repr

/-- The field assignments of `regClientsUpdateCmd.Execute` on the fetched record `rc`
(the five `if` statements between the `Get` and the `Update` call). -/
def applyFlags (c : regClientsUpdateCmd) (rc : RegisteredClient) : RegisteredClient :=
  let rc := if c.ClientName != "" then { rc with ClientName := c.ClientName } else rc
  let rc := if c.ClientURI != "" then { rc with ClientURI := c.ClientURI } else rc
  let rc := if c.RedirectURI != "" then { rc with RedirectURIs := [c.RedirectURI] } else rc
  let rc := if c.Description != "" then { rc with Description := c.Description } else rc
  if c.AllowLogins != "" then
    let meta_ :=
      match rc.Meta with
      | none => GoMap.empty
      | some m => m
    { rc with Meta := some (meta_.assign "allow-logins" c.AllowLogins) }
  else rc

/-- The method `regClientsUpdateCmd.Execute`: `get` and `update` are the backend calls
`cl.RegisteredClients.Get` and `cl.RegisteredClients.Update`. -/
def regClientsUpdateCmd.Execute (get : String → Except Error RegisteredClient)
    (update : RegisteredClient → Option Error) (c : regClientsUpdateCmd) :
    Option Error × List Event :=
  match get c.ClientID with
  | .error err => (some err, [.get c.ClientID])
  | .ok rc =>
    let t1 := [Event.get c.ClientID, .print (rc.ID ++ ": ")]
    let rc := applyFlags c rc
    let t2 := t1 ++ [.update rc]
    match update rc with
    | some err => (some err, t2)
    | none => (none, t2 ++ [.print "updated\n"])

/-- The `cl.RegisteredClients.Update` calls in a list of calls. -/
def updateCalls (trace : List Event) : List RegisteredClient :=
  trace.filterMap fun e =>
    match e with
    | .update rc => some rc
    | _ => none

end Cli

/-! ## `cli/internal/loghandlers/loghandlers.go` -/

namespace Loghandlers

/-- A value of type `interface{}` in `Record.Ctx`: a string or something else. -/
inductive CtxValue where
  | str (s : String)
  | other (repr : String)
  deriving DecidableEq, Repr

/-- The fields of `log15.Record` that `Noisey` reads. -/
structure Record where
  Lvl : Int
  Msg : String
  Ctx : List CtxValue
  deriving DecidableEq, Repr

/-- The level `log15.LvlDebug` (levels count up from `LvlCrit = 0`). -/
def LvlDebug : Int := 4

/-- The library function `strings.HasPrefix(s, prefix)`. -/
def HasPrefix (s pre : String) : Bool := pre.data.isPrefixOf s.data

/-- The variable `noisyRPC`. -/
def noisyRPC : List String := ["Builds.DequeueNext", "MirrorRepos.RefreshVCS"]

/-- A run-time panic of the Go program. -/
inductive Panic where
  | indexOutOfRange
  deriving DecidableEq, Repr

/-- The function `Noisey(r)`; the slice read `r.Ctx[1]` panics when out of range. -/
def Noisey (r : Record) : Except Panic Bool :=
  if r.Lvl != LvlDebug then .ok true
  else
    let noiseyPrefixes := ["repoUpdater: RefreshVCS"]
    if noiseyPrefixes.any (fun pre => HasPrefix r.Msg pre) then .ok false
    else if !HasPrefix r.Msg "TRACE gRPC" || r.Ctx.length < 2 then .ok true
    else
      match r.Ctx.get? 1 with
      | none => .error .indexOutOfRange
      | some (.str rpc) =>
        if noisyRPC.any (fun n => rpc == n) then .ok false else .ok true
      | some (.other _) => .ok true

end Loghandlers

/-! ## Concrete requests -/

namespace App

/-- The principal `alice`, UID 1. -/
def alice : UserSpec := ⟨"alice", 1⟩

/-- The user record of `alice`. -/
def aliceUser : User := ⟨1, "alice", "Alice", false, ""⟩

/-- The organization `acme`, UID 2. -/
def acmeOrg : User := ⟨2, "acme", "Acme Corp", true, ""⟩

/-- A backend that knows `alice` and the organization `acme`, of which `alice` is a
member: `Orgs.List` for member UID 1 returns `acme`. A path component parses to the
login it spells. -/
def sampleEnv : Env where
  redirectToLogIn := fun _ => none
  parseUserSpec := fun s =>
    if s == "" then .error (.ext 3 "empty user spec") else .ok ⟨s, 0⟩
  getUser := fun r =>
    if r.vars.index "User" == "alice" then .ok (aliceUser, alice)
    else if r.vars.index "User" == "acme" then .ok (acmeOrg, ⟨"acme", 2⟩)
    else .error (.ext 5 "user not found")
  orgsList := fun uid => if uid == 1 then .ok [⟨acmeOrg⟩] else .ok []
  listEmails := fun _ => .ok []
  accountsUpdate := fun _ => none
  tmplExec := fun _ => none
  trimSpace := fun s => s.trim
  toLower := fun s => s.toLower
  md5hex := fun _ => "d41d8cd98f00b204e9800998ecf8427e"
  routeUserSettingsProfile := "user.settings.profile"

/-- A `GET` of the settings of `user`, sent by `currentUser`. -/
def settingsRequest (currentUser : Option UserSpec) (user : String) : Request where
  currentUser := currentUser
  vars := ⟨[("User", user)]⟩
  routeName := "user.settings.profile"
  method := "GET"
  postFormValue := fun _ => ""

/-- The backend of `sampleEnv` with a `RedirectToLogIn` that fails with an HTTP error
of status 403. -/
def redirectFailsEnv : Env :=
  { sampleEnv with redirectToLogIn := fun _ => some (.httpErr 403 "log-in is disabled") }

/-- A request on a route with a second variable, addressed to the alias `.me`. -/
def meKeyRequest : Request where
  currentUser := some alice
  vars := ⟨[("User", ".me"), ("Key", "k1")]⟩
  routeName := "user.settings.key"
  method := "GET"
  postFormValue := fun _ => ""

end App

namespace Cli

/-- A registered client with some metadata. -/
def clientA : RegisteredClient where
  ID := "a1"
  ClientName := "Alpha"
  ClientURI := "https://alpha.example.com"
  RedirectURIs := ["https://alpha.example.com/cb", "https://alpha.example.com/cb2"]
  Description := "first"
  JWKS := "jwks-a"
  Type_ := 1
  Meta := some ⟨[("owner", "ops"), ("allow-logins", "restricted")]⟩
  CreatedAt := 100

/-- A registered client whose metadata map is nil. -/
def clientB : RegisteredClient where
  ID := "b2"
  ClientName := "Beta"
  ClientURI := ""
  RedirectURIs := []
  Description := ""
  JWKS := "jwks-b"
  Type_ := 1
  Meta := none
  CreatedAt := 200

/-- A third registered client. -/
def clientC : RegisteredClient where
  ID := "c3"
  ClientName := "Gamma"
  ClientURI := ""
  RedirectURIs := []
  Description := ""
  JWKS := "jwks-c"
  Type_ := 2
  Meta := none
  CreatedAt := 300

/-- A registry of three clients served two per page. -/
def samplePages (page : Int) : Except Error RegisteredClientList :=
  if page == 1 then .ok ⟨[clientA, clientB], true⟩
  else if page == 2 then .ok ⟨[clientC], false⟩
  else .ok ⟨[], false⟩

/-- A backend lookup that knows `clientA` and `clientB`. -/
def sampleGet (id : String) : Except Error RegisteredClient :=
  if id == "a1" then .ok clientA
  else if id == "b2" then .ok clientB
  else .error (.ext "not found")

/-- The flags `update --allow-logins=all a1`. -/
def allowAllCmd : regClientsUpdateCmd where
  ClientName := ""
  ClientURI := ""
  RedirectURI := ""
  Description := ""
  AllowLogins := "all"
  ClientID := "a1"

/-- The flags `update --description=second --allow-logins= a1`. -/
def describeCmd : regClientsUpdateCmd where
  ClientName := ""
  ClientURI := ""
  RedirectURI := ""
  Description := "second"
  AllowLogins := ""
  ClientID := "a1"

/-- Collaborators of `create` with a two-entry type table and a readable key file. -/
def sampleCreateEnv : CreateEnv where
  RegisteredClientType_value := [("Any", 0), ("SourcegraphServer", 1)]
  expandEnv := fun s => s
  readFile := fun _ => .ok "pem"
  idkeyNew := fun _ => .ok ⟨"k9", .ok "jwks-k9"⟩
  create := fun rc => .ok { rc with CreatedAt := 400 }

/-- The flags `create --type=<typ> --client-name=Delta`. -/
def createCmd (typ : String) : regClientsCreateCmd where
  ClientName := "Delta"
  ClientURI := ""
  RedirectURI := ""
  Description := ""
  Type_ := typ
  IDKeyFile := "/sg/id.pem"

end Cli

namespace Loghandlers

/-- A debug trace record of the RPC `Builds.DequeueNext`. -/
def dequeueRecord : Record where
  Lvl := 4
  Msg := "TRACE gRPC call"
  Ctx := [.str "rpc", .str "Builds.DequeueNext", .str "duration", .other "12ms"]

/-- An info record with the same message and context. -/
def infoRecord : Record where
  Lvl := 3
  Msg := "TRACE gRPC call"
  Ctx := [.str "rpc", .str "Builds.DequeueNext"]

end Loghandlers

/-! ## Theorems about `app/user_settings.go` -/

namespace App

/-- C1 (evaluation at the failing input). `alice` (UID 1) is a member of the
organization `acme` (UID 2): `Orgs.List` for her returns `acme`. Asking for her own
settings succeeds with a nil error and common data whose `OrgsAndSelf` holds both
subjects; asking for the settings of `acme` is answered with the 401 error of the
UID comparison, nil common data, and `Orgs.List` is not even called. -/
theorem userSettingsCommon_org_subject_unauthorized :
    sampleEnv.orgsList alice.UID = .ok [⟨acmeOrg⟩] ∧
    userSettingsCommon sampleEnv (settingsRequest (some alice) "alice") =
      ⟨alice, some ⟨aliceUser, [aliceUser, acmeOrg]⟩, none, [.getUser, .orgsList 1 100]⟩ ∧
    userSettingsCommon sampleEnv (settingsRequest (some alice) "acme") =
      ⟨UserSpec.zero, none,
        some (.httpErr 401 "must be logged in as the requested user"), [.getUser]⟩ := by
  refine ⟨rfl, by decide, by decide⟩

end App

namespace App

/-- When the `User` route variable does not parse to the login `.me` (or the principal
is nil), `userSettingsMeRedirect` returns nil and writes no response. -/
theorem userSettingsMeRedirect_not_me (env : Env) (r : Request) (u : Option UserSpec)
    (hme : ∀ s, env.parseUserSpec (r.vars.index "User") = .ok s → s.Login ≠ ".me") :
    userSettingsMeRedirect env r u = (none, []) := by
  unfold userSettingsMeRedirect
  cases u with
  | none => rfl
  | some u =>
    cases h : env.parseUserSpec (r.vars.index "User") with
    | error e => simp [h]
    | ok s => simp [h, hme s h]

/-- C2. An authenticated principal whose UID differs from the UID of the subject that
`getUser` resolved, on a path that is not the `.me` alias, gets the 401 error
"must be logged in as the requested user" (not the 403 one), the zero user spec and
nil common data; the only call made is `getUser`, so organizations are not listed. -/
theorem userSettingsCommon_uid_mismatch_unauthorized (env : Env) (r : Request)
    (currentUser : UserSpec) (p : User) (userSpec : UserSpec)
    (hcur : r.currentUser = some currentUser)
    (hme : ∀ s, env.parseUserSpec (r.vars.index "User") = .ok s → s.Login ≠ ".me")
    (hget : env.getUser r = .ok (p, userSpec))
    (hne : currentUser.UID ≠ userSpec.UID) :
    userSettingsCommon env r =
      ⟨UserSpec.zero, none,
        some (.httpErr 401 "must be logged in as the requested user"), [.getUser]⟩ ∧
    (userSettingsCommon env r).err ≠
      some (.httpErr 403 "only a user or an org admin can view/edit profile") ∧
    orgsListCalls (userSettingsCommon env r).trace = [] := by
  have hres : userSettingsCommon env r =
      ⟨UserSpec.zero, none,
        some (.httpErr 401 "must be logged in as the requested user"), [.getUser]⟩ := by
    unfold userSettingsCommon
    simp [hcur, userSettingsMeRedirect_not_me env r (some currentUser) hme, hget, hne,
      http.StatusUnauthorized]
  rw [hres]
  refine ⟨rfl, by decide, by decide⟩

/-- C2 at a concrete input: `alice` (UID 1) asking for `acme` (UID 2). -/
theorem userSettingsCommon_uid_mismatch_unauthorized_witness :
    userSettingsCommon sampleEnv (settingsRequest (some alice) "acme") =
      ⟨UserSpec.zero, none,
        some (.httpErr 401 "must be logged in as the requested user"), [.getUser]⟩ ∧
    (userSettingsCommon sampleEnv (settingsRequest (some alice) "acme")).err ≠
      some (.httpErr 403 "only a user or an org admin can view/edit profile") ∧
    orgsListCalls (userSettingsCommon sampleEnv (settingsRequest (some alice) "acme")).trace
      = [] :=
  userSettingsCommon_uid_mismatch_unauthorized sampleEnv (settingsRequest (some alice) "acme")
    alice acmeOrg ⟨"acme", 2⟩ rfl
    (fun s h => by
      have h2 : (Except.ok ⟨"acme", 0⟩ : Except Error UserSpec) = .ok s := h
      cases h2
      decide)
    rfl (by decide)

/-- C3 (amended). Without an authenticated principal `userSettingsCommon` only calls
`RedirectToLogIn` (it neither resolves the subject nor lists organizations) and returns
the zero user spec and nil common data; the error is `errUserSettingsCommonWroteResponse`
when the redirect succeeds and the redirect's own error, unchanged, when it fails. So
an HTTP error of status 401, 403 or any other is returned only when `RedirectToLogIn`
itself returned that very error: `userSettingsCommon` builds none on this path. -/
theorem userSettingsCommon_unauthenticated (env : Env) (r : Request)
    (hcur : r.currentUser = none) :
    (userSettingsCommon env r).userSpec = UserSpec.zero ∧
    (userSettingsCommon env r).data = none ∧
    (userSettingsCommon env r).trace = [.redirectToLogIn] ∧
    (env.redirectToLogIn r = none →
      (userSettingsCommon env r).err = some .wroteResponse) ∧
    (∀ e, env.redirectToLogIn r = some e → (userSettingsCommon env r).err = some e) ∧
    (∀ status msg, (userSettingsCommon env r).err = some (.httpErr status msg) →
      env.redirectToLogIn r = some (.httpErr status msg)) := by
  unfold userSettingsCommon
  rw [hcur]
  cases h : env.redirectToLogIn r with
  | none => simp
  | some e => simp

/-- C3 at a concrete input: a request without a principal, the redirect succeeding. -/
theorem userSettingsCommon_unauthenticated_witness :
    (userSettingsCommon sampleEnv (settingsRequest none "alice")).trace = [.redirectToLogIn] ∧
    (userSettingsCommon sampleEnv (settingsRequest none "alice")).err = some .wroteResponse :=
  ⟨(userSettingsCommon_unauthenticated sampleEnv (settingsRequest none "alice") rfl).2.2.1,
   (userSettingsCommon_unauthenticated sampleEnv (settingsRequest none "alice") rfl).2.2.2.1 rfl⟩

/-- C3 as first stated fails: with no authenticated principal and a `RedirectToLogIn`
that fails with an HTTP error of status 403, `userSettingsCommon` returns that 403
error, so "it never returns a 401 or 403 HTTP error" does not hold for every
outcome of the redirect. -/
theorem userSettingsCommon_unauthenticated_returns_redirect_403 :
    (settingsRequest none "alice").currentUser = none ∧
    userSettingsCommon redirectFailsEnv (settingsRequest none "alice") =
      ⟨UserSpec.zero, none, some (.httpErr 403 "log-in is disabled"), [.redirectToLogIn]⟩ ∧
    ¬ (∀ (env : Env) (r : Request), r.currentUser = none →
        ∀ msg, (userSettingsCommon env r).err ≠ some (.httpErr 401 msg) ∧
          (userSettingsCommon env r).err ≠ some (.httpErr 403 msg)) := by
  have heval : userSettingsCommon redirectFailsEnv (settingsRequest none "alice") =
      ⟨UserSpec.zero, none, some (.httpErr 403 "log-in is disabled"), [.redirectToLogIn]⟩ := by
    decide
  refine ⟨rfl, heval, ?_⟩
  intro hall
  have h := (hall redirectFailsEnv (settingsRequest none "alice") rfl "log-in is disabled").2
  rw [heval] at h
  exact h rfl

/-- C4 (evaluation at the failing input). On a route with the variables `User = ".me"`
and `Key = "k1"`, `userSettingsMeRedirect` for `alice` returns
`errUserSettingsCommonWroteResponse` and redirects to the same route with `User`
replaced by `alice`, but with `Key` set to the empty string: the copy loop stores
`vars[v]`, the entry whose key is the old value, not the old value itself. -/
theorem userSettingsMeRedirect_loses_other_vars :
    userSettingsMeRedirect sampleEnv meKeyRequest (some alice) =
      (some .wroteResponse,
        [.redirect "user.settings.key" ⟨[("User", "alice"), ("Key", "")]⟩ 302]) ∧
    meKeyRequest.vars.index "Key" = "k1" ∧
    (copyVars meKeyRequest.vars).index "Key" = "" := by
  decide

end App

namespace App

/-- A call of `Accounts.Update` in a list of calls shows in `accountsUpdateCalls`. -/
theorem mem_accountsUpdateCalls (trace : List Event) (u : User)
    (h : Event.accountsUpdate u ∈ trace) : u ∈ accountsUpdateCalls trace := by
  unfold accountsUpdateCalls
  exact List.mem_filterMap.mpr ⟨_, h, rfl⟩

/-- The function `userSettingsMeRedirect` never calls `Accounts.Update`. -/
theorem userSettingsMeRedirect_no_update (env : Env) (r : Request) (u : Option UserSpec) :
    accountsUpdateCalls (userSettingsMeRedirect env r u).2 = [] := by
  unfold userSettingsMeRedirect
  cases u with
  | none => rfl
  | some u =>
    cases h : env.parseUserSpec (r.vars.index "User") with
    | error e => simp [h, accountsUpdateCalls]
    | ok s =>
      by_cases hs : s.Login = ".me" <;> simp [h, hs, accountsUpdateCalls]

/-- The function `userSettingsCommon` never calls `Accounts.Update`. -/
theorem userSettingsCommon_no_update (env : Env) (r : Request) :
    accountsUpdateCalls (userSettingsCommon env r).trace = [] := by
  unfold userSettingsCommon
  cases hcur : r.currentUser with
  | none =>
    cases env.redirectToLogIn r <;> simp [accountsUpdateCalls]
  | some currentUser =>
    have hme := userSettingsMeRedirect_no_update env r (some currentUser)
    unfold accountsUpdateCalls at hme
    simp only [accountsUpdateCalls, userSettingsCommonDecide]
    repeat' split
    all_goals simp_all

/-- When `userSettingsCommon` returns an error, `serveUserSettingsProfile` makes no
call of its own: its calls are those of `userSettingsCommon`. -/
theorem serveUserSettingsProfile_stops (env : Env) (r : Request)
    (herr : (userSettingsCommon env r).err ≠ none) :
    (serveUserSettingsProfile env r).2 = (userSettingsCommon env r).trace := by
  unfold serveUserSettingsProfile
  generalize userSettingsCommon env r = c at herr ⊢
  cases hc : c.err with
  | none => exact absurd hc herr
  | some e =>
    by_cases he : e = Error.wroteResponse <;> simp [hc, he]

/-- When `userSettingsCommon` returns an error, `serveUserSettingsProfileAvatar` makes
no call of its own: its calls are those of `userSettingsCommon`. -/
theorem serveUserSettingsProfileAvatar_stops (env : Env) (r : Request)
    (herr : (userSettingsCommon env r).err ≠ none) :
    (serveUserSettingsProfileAvatar env r).2 = (userSettingsCommon env r).trace := by
  unfold serveUserSettingsProfileAvatar
  generalize userSettingsCommon env r = c at herr ⊢
  cases hc : c.err with
  | none => exact absurd hc herr
  | some e =>
    by_cases he : e = Error.wroteResponse <;> simp [hc, he]

/-- C9. The profile and avatar handlers fail closed. `userSettingsCommon` itself never
calls `Accounts.Update`; when it returns any error the handler makes no further call,
so its list of calls holds no `Accounts.Update`; and whenever a handler's list of calls
holds an `Accounts.Update`, `userSettingsCommon` had returned a nil error. -/
theorem settings_handlers_fail_closed (env : Env) (r : Request) :
    accountsUpdateCalls (userSettingsCommon env r).trace = [] ∧
    ((userSettingsCommon env r).err ≠ none →
      accountsUpdateCalls (serveUserSettingsProfile env r).2 = [] ∧
      accountsUpdateCalls (serveUserSettingsProfileAvatar env r).2 = []) ∧
    (∀ u, Event.accountsUpdate u ∈ (serveUserSettingsProfile env r).2 →
      (userSettingsCommon env r).err = none) ∧
    (∀ u, Event.accountsUpdate u ∈ (serveUserSettingsProfileAvatar env r).2 →
      (userSettingsCommon env r).err = none) := by
  have h0 := userSettingsCommon_no_update env r
  refine ⟨h0, ?_, ?_, ?_⟩
  · intro herr
    rw [serveUserSettingsProfile_stops env r herr,
      serveUserSettingsProfileAvatar_stops env r herr]
    exact ⟨h0, h0⟩
  · intro u hu
    by_contra herr
    rw [serveUserSettingsProfile_stops env r herr] at hu
    have := mem_accountsUpdateCalls _ u hu
    rw [h0] at this
    exact absurd this (List.not_mem_nil u)
  · intro u hu
    by_contra herr
    rw [serveUserSettingsProfileAvatar_stops env r herr] at hu
    have := mem_accountsUpdateCalls _ u hu
    rw [h0] at this
    exact absurd this (List.not_mem_nil u)

/-- C9 at concrete inputs: `alice` asking for `acme` is refused and the avatar handler
calls no `Accounts.Update`; `alice` posting her own avatar reaches `Accounts.Update`
and `userSettingsCommon` had returned nil. -/
theorem settings_handlers_fail_closed_witness :
    accountsUpdateCalls
      (serveUserSettingsProfileAvatar sampleEnv (settingsRequest (some alice) "acme")).2 = [] ∧
    (userSettingsCommon sampleEnv (settingsRequest (some alice) "alice")).err = none :=
  ⟨((settings_handlers_fail_closed sampleEnv (settingsRequest (some alice) "acme")).2.1
      (by decide)).2,
   (settings_handlers_fail_closed sampleEnv (settingsRequest (some alice) "alice")).2.2.2
      { aliceUser with AvatarURL :=
          "https://secure.gravatar.com/avatar/d41d8cd98f00b204e9800998ecf8427e?d=mm" }
      (by decide)⟩

end App

/-! ## Theorems about `cli/registered_clients.go` -/

namespace Cli

/-- A page number below `2^31 - 1` does not wrap when incremented. -/
theorem wrapInt32_succ (page : Nat) (h : page + 1 < 2147483648) :
    wrapInt32 ((page : Int) + 1) = ((page + 1 : Nat) : Int) := by
  unfold wrapInt32
  push_cast
  omega

/-- The `List` calls of one round of the loop: the page itself. -/
theorem requestedPages_pageTrace (detail : Bool)
    (list : Int → Except Error RegisteredClientList) (page : Int) :
    requestedPages (pageTrace detail list page) = [page] := by
  unfold pageTrace requestedPages
  cases h : list page with
  | error e => simp
  | ok cl =>
    simp only [List.filterMap_append, List.filterMap_map]
    have : List.filterMap ((fun e => match e with
        | Event.list page => some page
        | _ => none) ∘ listEmit detail) cl.Clients = [] := by
      apply List.filterMap_eq_nil_iff.mpr
      intro c _
      unfold listEmit
      cases detail <;> simp
    simp [this]

/-- The clients one round of the loop writes: those of the page. -/
theorem emittedClients_pageTrace (detail : Bool)
    (list : Int → Except Error RegisteredClientList) (page : Int) :
    emittedClients (pageTrace detail list page) = pageClients detail list page := by
  unfold pageTrace emittedClients pageClients
  cases h : list page with
  | error e => simp
  | ok cl =>
    simp only [List.filterMap_append, List.filterMap_map]
    induction cl.Clients with
    | nil => simp
    | cons c cs ih =>
      simp only [List.filterMap_cons, List.map_cons, Function.comp, listEmit]
      cases detail <;> simp_all [listEmit]

/-- Page numbers requested over a run of rounds. -/
theorem requestedPages_flatMap (detail : Bool)
    (list : Int → Except Error RegisteredClientList) (pages : List Nat) :
    requestedPages (pages.flatMap fun i => pageTrace detail list i) =
      pages.map fun i => (i : Int) := by
  induction pages with
  | nil => rfl
  | cons p ps ih =>
    have happ : ∀ a b, requestedPages (a ++ b) = requestedPages a ++ requestedPages b := by
      intro a b
      simp [requestedPages]
    rw [List.flatMap_cons, happ, ih, requestedPages_pageTrace]
    rfl

/-- Clients written over a run of rounds. -/
theorem emittedClients_flatMap (detail : Bool)
    (list : Int → Except Error RegisteredClientList) (pages : List Nat) :
    emittedClients (pages.flatMap fun i => pageTrace detail list i) =
      pages.flatMap fun i => pageClients detail list i := by
  induction pages with
  | nil => rfl
  | cons p ps ih =>
    have happ : ∀ a b, emittedClients (a ++ b) = emittedClients a ++ emittedClients b := by
      intro a b
      simp [emittedClients]
    rw [List.flatMap_cons, happ, ih, emittedClients_pageTrace, List.flatMap_cons]

/-- The loop started at `page`, when the `j` pages from `page` on succeed with
`HasMore = true` and page `page + j` ends the loop, runs `j + 1` rounds. -/
theorem listLoop_run (detail : Bool) (list : Int → Except Error RegisteredClientList) :
    ∀ (j page fuel : Nat) (trace : List Event),
      page + j < 2147483648 → j + 1 ≤ fuel →
      (∀ i : Nat, page ≤ i → i < page + j → ∃ cs, list i = .ok ⟨cs, true⟩) →
      ((∃ cs, list ((page + j : Nat) : Int) = .ok ⟨cs, false⟩) ∨
        (∃ e, list ((page + j : Nat) : Int) = .error e)) →
      listLoop detail list fuel page trace =
        some (pageError list ((page + j : Nat) : Int),
          trace ++ (List.range' page (j + 1)).flatMap fun i => pageTrace detail list i) := by
  intro j
  induction j with
  | zero =>
    intro page fuel trace _ hfuel _ hstop
    obtain ⟨f, rfl⟩ : ∃ f, fuel = f + 1 := ⟨fuel - 1, by omega⟩
    simp only [Nat.add_zero] at hstop ⊢
    rcases hstop with ⟨cs, h⟩ | ⟨e, h⟩
    · simp [listLoop, pageError, pageTrace, h, List.range']
    · simp [listLoop, pageError, pageTrace, h, List.range']
  | succ j ih =>
    intro page fuel trace hlt hfuel hmore hstop
    obtain ⟨f, rfl⟩ : ∃ f, fuel = f + 1 := ⟨fuel - 1, by omega⟩
    obtain ⟨cs, hpage⟩ := hmore page (Nat.le_refl _) (by omega)
    have hnext := ih (page + 1) f (trace ++ [.list page] ++ cs.map (listEmit detail))
      (by omega) (by omega)
      (fun i h1 h2 => hmore i (by omega) (by omega))
      (by rw [show page + 1 + j = page + (j + 1) by omega]; exact hstop)
    rw [show page + 1 + j = page + (j + 1) by omega] at hnext
    rw [listLoop]
    simp only [hpage, Bool.not_true, Bool.false_eq_true, if_false]
    have hr : List.range' page (j + 1 + 1) = page :: List.range' (page + 1) (j + 1) :=
      List.range'_succ page (j + 1) 1
    have hp : pageTrace detail list page = [.list page] ++ cs.map (listEmit detail) := by
      simp [pageTrace, hpage]
    rw [wrapInt32_succ page (by omega), hnext, hr, List.flatMap_cons, hp]
    simp [List.append_assoc]

end Cli

namespace Cli

/-- C8. Let page `n >= 1` (an `int32` page number) be the first page that either
answers `HasMore = false` or returns an error, every page before it answering
`HasMore = true` without error. Then `regClientsListCmd.Execute`, on any fuel of at
least `n` rounds, ends; it requests exactly the pages `1, 2, ..., n` in that order; its
calls are, page by page, the `List` call followed by one output call per client, so the
output is the concatenation of the pages; and it returns nil when page `n` answered
`HasMore = false` and the error of page `n` when page `n` failed. -/
theorem regClientsListExecute_pages (detail : Bool)
    (list : Int → Except Error RegisteredClientList) (n fuel : Nat)
    (hn : 1 ≤ n) (hn32 : n < 2147483648) (hfuel : n ≤ fuel)
    (hmore : ∀ i : Nat, 1 ≤ i → i < n → ∃ cs, list i = .ok ⟨cs, true⟩)
    (hstop : (∃ cs, list n = .ok ⟨cs, false⟩) ∨ (∃ e, list n = .error e)) :
    ∃ trace,
      regClientsListCmd.Execute ⟨detail⟩ list fuel = some (pageError list n, trace) ∧
      trace = (List.range' 1 n).flatMap (fun i => pageTrace detail list i) ∧
      requestedPages trace = (List.range' 1 n).map (fun i => (i : Int)) ∧
      emittedClients trace = (List.range' 1 n).flatMap (fun i => pageClients detail list i) ∧
      ((∃ cs, list n = .ok ⟨cs, false⟩) → pageError list n = none) ∧
      (∀ e, list n = .error e → pageError list n = some e) := by
  obtain ⟨j, rfl⟩ : ∃ j, n = j + 1 := ⟨n - 1, by omega⟩
  have hrun := listLoop_run detail list j 1 fuel [] (by omega) (by omega)
    (fun i h1 h2 => hmore i h1 (by omega))
    (by rw [show 1 + j = j + 1 by omega]; exact hstop)
  rw [show 1 + j = j + 1 by omega] at hrun
  refine ⟨_, ?_, rfl, requestedPages_flatMap detail list _,
    emittedClients_flatMap detail list _, ?_, ?_⟩
  · unfold regClientsListCmd.Execute
    simpa using hrun
  · rintro ⟨cs, h⟩
    unfold pageError
    rw [h]
  · intro e h
    unfold pageError
    rw [h]

/-- C8 at a concrete input: three clients served two per page, summary output. -/
theorem regClientsListExecute_pages_witness :
    ∃ trace,
      regClientsListCmd.Execute ⟨false⟩ samplePages 2 = some (pageError samplePages 2, trace) ∧
      trace = (List.range' 1 2).flatMap (fun i => pageTrace false samplePages i) ∧
      requestedPages trace = (List.range' 1 2).map (fun i => (i : Int)) ∧
      emittedClients trace =
        (List.range' 1 2).flatMap (fun i => pageClients false samplePages i) ∧
      ((∃ cs, samplePages 2 = .ok ⟨cs, false⟩) → pageError samplePages 2 = none) ∧
      (∀ e, samplePages 2 = .error e → pageError samplePages 2 = some e) :=
  regClientsListExecute_pages false samplePages 2 2 (by decide) (by decide) (by decide)
    (fun i h1 h2 => by
      obtain rfl : i = 1 := by omega
      exact ⟨[clientA, clientB], rfl⟩)
    (Or.inl ⟨[clientC], rfl⟩)

end Cli

namespace Cli

/-- Reading a map after the write `m[k] = v`: the written key reads `v`, every other
key reads what it read before. -/
theorem lookup?_assign (m : GoMap) (k v k' : String) :
    (m.assign k v).lookup? k' = if k' = k then some v else m.lookup? k' := by
  unfold GoMap.assign GoMap.lookup?
  show List.lookup k' (GoMap.assignEntries k v m.entries) = _
  have hb : ∀ x y : String, x ≠ y → (x == y) = false := fun x y h => by simpa using h
  induction m.entries with
  | nil =>
    by_cases h : k' = k
    · simp [GoMap.assignEntries, List.lookup, h]
    · simp [GoMap.assignEntries, List.lookup, h, hb _ _ h]
  | cons e es ih =>
    obtain ⟨a, b⟩ := e
    by_cases hak : a = k
    · subst hak
      by_cases h : k' = a
      · simp [GoMap.assignEntries, List.lookup, h]
      · simp [GoMap.assignEntries, List.lookup, h, hb _ _ h]
    · by_cases hka : k' = a
      · subst hka
        have hne : ¬ k' = k := hak
        simp [GoMap.assignEntries, List.lookup, hak, hne]
      · simp only [GoMap.assignEntries, hb _ _ hak, Bool.false_eq_true, if_false,
          List.lookup, hb _ _ hka]
        exact ih

/-- With a successful `Get`, `regClientsUpdateCmd.Execute` calls `Update` exactly once,
with the fetched record after the flag assignments. -/
theorem updateCalls_execute (get : String → Except Error RegisteredClient)
    (update : RegisteredClient → Option Error) (c : regClientsUpdateCmd)
    (rc : RegisteredClient) (hget : get c.ClientID = .ok rc) :
    updateCalls (regClientsUpdateCmd.Execute get update c).2 = [applyFlags c rc] := by
  unfold regClientsUpdateCmd.Execute
  rw [hget]
  cases h : update (applyFlags c rc) <;> simp [updateCalls, h]

/-- C5. With only `--allow-logins` set to a non-empty `v`, the one record passed to
`Update` is the fetched record `rc` with nothing but its metadata changed (ID,
ClientName, ClientURI, RedirectURIs, Description and the rest are those of `rc`); the
metadata is a non-nil map in which `allow-logins` reads `v` and every other key reads
what it read in `rc`; a nil metadata map becomes exactly the map with the single entry
`allow-logins: v`. -/
theorem regClientsUpdateExecute_allow_logins_only
    (get : String → Except Error RegisteredClient) (update : RegisteredClient → Option Error)
    (c : regClientsUpdateCmd) (rc : RegisteredClient)
    (hname : c.ClientName = "") (huri : c.ClientURI = "") (hredirect : c.RedirectURI = "")
    (hdesc : c.Description = "") (hallow : c.AllowLogins ≠ "")
    (hget : get c.ClientID = .ok rc) :
    ∃ sent meta_,
      updateCalls (regClientsUpdateCmd.Execute get update c).2 = [sent] ∧
      sent = { rc with Meta := some meta_ } ∧
      sent.ID = rc.ID ∧ sent.ClientName = rc.ClientName ∧ sent.ClientURI = rc.ClientURI ∧
      sent.RedirectURIs = rc.RedirectURIs ∧ sent.Description = rc.Description ∧
      meta_.lookup? "allow-logins" = some c.AllowLogins ∧
      (∀ k, k ≠ "allow-logins" → ∀ m, rc.Meta = some m → meta_.lookup? k = m.lookup? k) ∧
      (rc.Meta = none → meta_ = ⟨[("allow-logins", c.AllowLogins)]⟩) := by
  have hflags : applyFlags c rc =
      { rc with Meta := some ((match rc.Meta with
          | none => GoMap.empty
          | some m => m).assign "allow-logins" c.AllowLogins) } := by
    simp [applyFlags, hname, huri, hredirect, hdesc, hallow]
  refine ⟨_, _, updateCalls_execute get update c rc hget, hflags,
    ?_, ?_, ?_, ?_, ?_, ?_, ?_, ?_⟩
  · rw [hflags]
  · rw [hflags]
  · rw [hflags]
  · rw [hflags]
  · rw [hflags]
  · rw [lookup?_assign]
    simp
  · intro k hk m hm
    rw [lookup?_assign, hm]
    simp [hk]
  · intro hnil
    rw [hnil]
    rfl

/-- C5 at a concrete input: `update --allow-logins=all a1` on a client that has the
metadata `owner: ops, allow-logins: restricted`. -/
theorem regClientsUpdateExecute_allow_logins_only_witness :
    ∃ sent meta_,
      updateCalls (regClientsUpdateCmd.Execute sampleGet (fun _ => none) allowAllCmd).2 =
        [sent] ∧
      sent = { clientA with Meta := some meta_ } ∧
      sent.ID = clientA.ID ∧ sent.ClientName = clientA.ClientName ∧
      sent.ClientURI = clientA.ClientURI ∧
      sent.RedirectURIs = clientA.RedirectURIs ∧ sent.Description = clientA.Description ∧
      meta_.lookup? "allow-logins" = some allowAllCmd.AllowLogins ∧
      (∀ k, k ≠ "allow-logins" → ∀ m, clientA.Meta = some m →
        meta_.lookup? k = m.lookup? k) ∧
      (clientA.Meta = none → meta_ = ⟨[("allow-logins", allowAllCmd.AllowLogins)]⟩) :=
  regClientsUpdateExecute_allow_logins_only sampleGet (fun _ => none) allowAllCmd clientA
    rfl rfl rfl rfl (by decide) rfl

end Cli

namespace Cli

/-- The fields of the record after the flag assignments: a non-empty flag replaces the
field, an empty flag leaves it. -/
theorem applyFlags_fields (c : regClientsUpdateCmd) (rc : RegisteredClient) :
    (applyFlags c rc).ID = rc.ID ∧ (applyFlags c rc).JWKS = rc.JWKS ∧
    (applyFlags c rc).Type_ = rc.Type_ ∧ (applyFlags c rc).CreatedAt = rc.CreatedAt ∧
    (applyFlags c rc).ClientName =
      (if c.ClientName = "" then rc.ClientName else c.ClientName) ∧
    (applyFlags c rc).ClientURI =
      (if c.ClientURI = "" then rc.ClientURI else c.ClientURI) ∧
    (applyFlags c rc).Description =
      (if c.Description = "" then rc.Description else c.Description) ∧
    (applyFlags c rc).RedirectURIs =
      (if c.RedirectURI = "" then rc.RedirectURIs else [c.RedirectURI]) ∧
    (applyFlags c rc).Meta =
      (if c.AllowLogins = "" then rc.Meta
       else some ((match rc.Meta with
          | none => GoMap.empty
          | some m => m).assign "allow-logins" c.AllowLogins)) := by
  unfold applyFlags
  by_cases h1 : c.ClientName = "" <;> by_cases h2 : c.ClientURI = "" <;>
    by_cases h3 : c.RedirectURI = "" <;> by_cases h4 : c.Description = "" <;>
    by_cases h5 : c.AllowLogins = "" <;> simp [h1, h2, h3, h4, h5]

/-- C6. `regClientsUpdateCmd.Execute` is a partial update. The one record passed to
`Update` has ClientName, ClientURI and Description equal to the flag when the flag is
non-empty and to the fetched value otherwise; RedirectURIs is the singleton of the flag
when it is non-empty and the fetched list otherwise; the metadata is the fetched one
when `--allow-logins` is empty; ID, JWKS, Type and CreatedAt are the fetched ones. With
all flags empty the record is the fetched record, and no field is cleared: a
non-empty fetched field is non-empty in the record sent, and every metadata key that
was present is still present. -/
theorem regClientsUpdateExecute_partial_update
    (get : String → Except Error RegisteredClient) (update : RegisteredClient → Option Error)
    (c : regClientsUpdateCmd) (rc : RegisteredClient)
    (hget : get c.ClientID = .ok rc) :
    ∃ sent,
      updateCalls (regClientsUpdateCmd.Execute get update c).2 = [sent] ∧
      sent.ID = rc.ID ∧ sent.JWKS = rc.JWKS ∧ sent.Type_ = rc.Type_ ∧
      sent.CreatedAt = rc.CreatedAt ∧
      sent.ClientName = (if c.ClientName = "" then rc.ClientName else c.ClientName) ∧
      sent.ClientURI = (if c.ClientURI = "" then rc.ClientURI else c.ClientURI) ∧
      sent.Description = (if c.Description = "" then rc.Description else c.Description) ∧
      sent.RedirectURIs = (if c.RedirectURI = "" then rc.RedirectURIs else [c.RedirectURI]) ∧
      (c.AllowLogins = "" → sent.Meta = rc.Meta) ∧
      (c.ClientName = "" → c.ClientURI = "" → c.RedirectURI = "" → c.Description = "" →
        c.AllowLogins = "" → sent = rc) ∧
      (rc.ClientName ≠ "" → sent.ClientName ≠ "") ∧
      (rc.ClientURI ≠ "" → sent.ClientURI ≠ "") ∧
      (rc.Description ≠ "" → sent.Description ≠ "") ∧
      (rc.RedirectURIs ≠ [] → sent.RedirectURIs ≠ []) ∧
      (∀ m k, rc.Meta = some m → m.lookup? k ≠ none →
        ∃ m', sent.Meta = some m' ∧ m'.lookup? k ≠ none) := by
  obtain ⟨hid, hjwks, htype, hcreated, hname, huri, hdesc, hredirect, hmeta⟩ :=
    applyFlags_fields c rc
  refine ⟨applyFlags c rc, updateCalls_execute get update c rc hget,
    hid, hjwks, htype, hcreated, hname, huri, hdesc, hredirect, ?_, ?_, ?_, ?_, ?_, ?_, ?_⟩
  · intro h
    rw [hmeta, if_pos h]
  · intro h1 h2 h3 h4 h5
    simp [applyFlags, h1, h2, h3, h4, h5]
  · intro h
    rw [hname]
    split_ifs with hc
    · exact h
    · exact hc
  · intro h
    rw [huri]
    split_ifs with hc
    · exact h
    · exact hc
  · intro h
    rw [hdesc]
    split_ifs with hc
    · exact h
    · exact hc
  · intro h
    rw [hredirect]
    split_ifs with hc
    · exact h
    · simp
  · intro m k hm hk
    rw [hmeta, hm]
    by_cases hc : c.AllowLogins = ""
    · exact ⟨m, by simp [hc], hk⟩
    · refine ⟨m.assign "allow-logins" c.AllowLogins, by simp [hc], ?_⟩
      rw [lookup?_assign]
      split_ifs
      · simp
      · exact hk

/-- C6 at a concrete input: `update --description=second --allow-logins= a1`. -/
theorem regClientsUpdateExecute_partial_update_witness :
    ∃ sent,
      updateCalls (regClientsUpdateCmd.Execute sampleGet (fun _ => none) describeCmd).2 =
        [sent] ∧
      sent.ClientName =
        (if describeCmd.ClientName = "" then clientA.ClientName else describeCmd.ClientName) ∧
      sent.Description =
        (if describeCmd.Description = "" then clientA.Description
         else describeCmd.Description) ∧
      sent.Meta = clientA.Meta := by
  obtain ⟨sent, hsent, -, -, -, -, hname, -, hdesc, -, hmeta, -⟩ :=
    regClientsUpdateExecute_partial_update sampleGet (fun _ => none) describeCmd clientA rfl
  exact ⟨sent, hsent, hname, hdesc, hmeta rfl⟩

/-- C7. When the `Type` flag is not a key of the table `RegisteredClientType_value`,
`regClientsCreateCmd.Execute` returns the "invalid --type" error having made no call
at all: the key file is not read and `Create` is not called. When the table maps the
flag to `typ`, every record passed to `Create` carries `typ` as its type, and if
reading the file, parsing the key and marshalling its public part succeed, exactly one
record is passed to `Create`: the one built from the key and the flags, of type `typ`. -/
theorem regClientsCreateExecute_type_checked (env : CreateEnv) (c : regClientsCreateCmd) :
    (env.RegisteredClientType_value.lookup c.Type_ = none →
      regClientsCreateCmd.Execute env c = (some (.invalidType c.Type_), []) ∧
      readFileCalls (regClientsCreateCmd.Execute env c).2 = [] ∧
      createCalls (regClientsCreateCmd.Execute env c).2 = []) ∧
    (∀ typ, env.RegisteredClientType_value.lookup c.Type_ = some typ →
      (∀ rc ∈ createCalls (regClientsCreateCmd.Execute env c).2, rc.Type_ = typ) ∧
      (∀ data idKey jwks, env.readFile (env.expandEnv c.IDKeyFile) = .ok data →
        env.idkeyNew data = .ok idKey → idKey.jwks = .ok jwks →
        createCalls (regClientsCreateCmd.Execute env c).2 =
          [{ ID := idKey.ID, ClientName := c.ClientName, ClientURI := c.ClientURI,
             RedirectURIs := if c.RedirectURI = "" then [] else [c.RedirectURI],
             Description := c.Description, JWKS := jwks, Type_ := typ,
             Meta := none, CreatedAt := 0 }])) := by
  refine ⟨?_, ?_⟩
  · intro h
    have hres : regClientsCreateCmd.Execute env c = (some (.invalidType c.Type_), []) := by
      unfold regClientsCreateCmd.Execute
      rw [h]
    rw [hres]
    exact ⟨rfl, rfl, rfl⟩
  · intro typ h
    refine ⟨?_, ?_⟩
    · intro rc hrc
      unfold regClientsCreateCmd.Execute at hrc
      rw [h] at hrc
      simp only at hrc
      cases h1 : env.readFile (env.expandEnv c.IDKeyFile) with
      | error e => simp [h1, createCalls] at hrc
      | ok data =>
        cases h2 : env.idkeyNew data with
        | error e => simp [h1, h2, createCalls] at hrc
        | ok idKey =>
          cases h3 : idKey.jwks with
          | error e => simp [h1, h2, h3, createCalls] at hrc
          | ok jwks =>
            simp only [h1, h2, h3] at hrc
            by_cases hr : c.RedirectURI = "" <;>
              split at hrc <;> simp [createCalls, hr] at hrc <;> rw [hrc]
    · intro data idKey jwks h1 h2 h3
      unfold regClientsCreateCmd.Execute
      rw [h]
      simp only [h1, h2, h3]
      by_cases hr : c.RedirectURI = "" <;> split <;> simp [createCalls, hr]

/-- C7 at concrete inputs: `--type=UnknownType` is refused without any call, and
`--type=SourcegraphServer` submits a record of type 1. -/
theorem regClientsCreateExecute_type_checked_witness :
    regClientsCreateCmd.Execute sampleCreateEnv (createCmd "UnknownType") =
      (some (.invalidType "UnknownType"), []) ∧
    (∀ rc ∈ createCalls
        (regClientsCreateCmd.Execute sampleCreateEnv (createCmd "SourcegraphServer")).2,
      rc.Type_ = 1) :=
  ⟨((regClientsCreateExecute_type_checked sampleCreateEnv (createCmd "UnknownType")).1
      (by decide)).1,
   ((regClientsCreateExecute_type_checked sampleCreateEnv
      (createCmd "SourcegraphServer")).2 1 (by decide)).1⟩

end Cli

/-! ## Theorems about `cli/internal/loghandlers/loghandlers.go` -/

namespace Loghandlers

/-- C10. `Noisey` never panics (the read `r.Ctx[1]` only happens when `r.Ctx` has at
least 2 elements), and it returns false exactly for the debug records whose message
starts with "repoUpdater: RefreshVCS", or starts with "TRACE gRPC" while `r.Ctx` has at
least 2 elements and `r.Ctx[1]` is the string "Builds.DequeueNext" or
"MirrorRepos.RefreshVCS"; every record of another level is kept. -/
theorem Noisey_false_iff (r : Record) :
    (∃ b, Noisey r = .ok b) ∧
    (Noisey r = .ok false ↔
      r.Lvl = LvlDebug ∧
      (HasPrefix r.Msg "repoUpdater: RefreshVCS" = true ∨
        (HasPrefix r.Msg "TRACE gRPC" = true ∧ 2 ≤ r.Ctx.length ∧
          (r.Ctx.get? 1 = some (.str "Builds.DequeueNext") ∨
            r.Ctx.get? 1 = some (.str "MirrorRepos.RefreshVCS"))))) ∧
    (r.Lvl ≠ LvlDebug → Noisey r = .ok true) := by
  unfold Noisey
  by_cases hl : r.Lvl = LvlDebug
  · by_cases hp : HasPrefix r.Msg "repoUpdater: RefreshVCS" = true
    · simp [hl, hp]
    · by_cases ht : HasPrefix r.Msg "TRACE gRPC" = true
      · by_cases hlen : r.Ctx.length < 2
        · have hlen2 : ¬ 2 ≤ r.Ctx.length := by omega
          simp [hl, hp, ht, hlen, hlen2]
        · have hlen2 : 2 ≤ r.Ctx.length := by omega
          cases hget : r.Ctx.get? 1 with
          | none =>
            have := List.get?_eq_none.mp hget
            omega
          | some v =>
            cases v with
            | str rpc =>
              by_cases h1 : rpc = "Builds.DequeueNext"
              · simp [hl, hp, ht, hlen, hlen2, hget, noisyRPC, h1]
              · by_cases h2 : rpc = "MirrorRepos.RefreshVCS"
                · simp [hl, hp, ht, hlen, hlen2, hget, noisyRPC, h2]
                · simp [hl, hp, ht, hlen, hlen2, hget, noisyRPC, h1, h2]
            | other repr => simp [hl, hp, ht, hlen, hlen2, hget]
      · simp [hl, hp, ht]
  · simp [hl]

/-- C10 at concrete inputs: a debug trace of `Builds.DequeueNext` is dropped, the same
record at info level is kept. -/
theorem Noisey_false_iff_witness :
    Noisey dequeueRecord = .ok false ∧ Noisey infoRecord = .ok true :=
  ⟨(Noisey_false_iff dequeueRecord).2.1.mpr
      ⟨rfl, Or.inr ⟨by decide, by decide, Or.inl rfl⟩⟩,
   (Noisey_false_iff infoRecord).2.2 (by decide)⟩

end Loghandlers

/-! ## The 403 branch of `userSettingsCommon` -/

namespace App

/-- The admin-check loop finds a match at the first element of a list that starts with
the subject itself. -/
theorem currentUserCanAdminOrg_self (p : User) (rest : List User) :
    currentUserCanAdminOrg p (p :: rest) = true := by
  simp [currentUserCanAdminOrg]

/-- The tail of `userSettingsCommon` never takes its 403 branch: for every subject and
every list of organizations it returns a nil error and the common data. -/
theorem userSettingsCommonDecide_ok (p : User) (userSpec : UserSpec) (orgs : List Org)
    (trace : List Event) :
    userSettingsCommonDecide p userSpec orgs trace =
      ⟨userSpec, some ⟨p, p :: orgs.map (fun org => org.User)⟩, none, trace⟩ := by
  unfold userSettingsCommonDecide
  simp [currentUserCanAdminOrg_self]

/-- C11. The 403 branch of `userSettingsCommon` is unreachable. `orgsAndSelf` starts
with the resolved subject `p`, so the admin-check loop, which compares `p.UID` with the
UID of each element, always finds a match. Hence once the UID comparison with the
current user has passed, whatever organizations `Orgs.List` returns, the call ends in
one of three ways, none of which is the error "only a user or an org admin can
view/edit profile": a nil error with the common data when `Orgs.List` succeeds, the
same with no organizations when `Orgs.List` is unimplemented, and the error of
`Orgs.List` itself otherwise. -/
theorem userSettingsCommon_forbidden_unreachable (env : Env) (r : Request)
    (currentUser : UserSpec) (p : User) (userSpec : UserSpec)
    (hcur : r.currentUser = some currentUser)
    (hme : ∀ s, env.parseUserSpec (r.vars.index "User") = .ok s → s.Login ≠ ".me")
    (hget : env.getUser r = .ok (p, userSpec))
    (heq : currentUser.UID = userSpec.UID) :
    (∀ orgs : List Org,
      currentUserCanAdminOrg p ([p] ++ orgs.map (fun org => org.User)) = true) ∧
    (∀ orgs, env.orgsList currentUser.UID = .ok orgs →
      userSettingsCommon env r =
        ⟨userSpec, some ⟨p, p :: orgs.map (fun org => org.User)⟩, none,
          [.getUser, .orgsList currentUser.UID 100]⟩) ∧
    (∀ e, env.orgsList currentUser.UID = .error e →
      grpcCode (some e) = codes.Unimplemented →
      userSettingsCommon env r =
        ⟨userSpec, some ⟨p, [p]⟩, none, [.getUser, .orgsList currentUser.UID 100]⟩) ∧
    (∀ e, env.orgsList currentUser.UID = .error e →
      grpcCode (some e) ≠ codes.Unimplemented →
      userSettingsCommon env r =
        ⟨userSpec, none, some e, [.getUser, .orgsList currentUser.UID 100]⟩) ∧
    (∀ status msg, (userSettingsCommon env r).err = some (.httpErr status msg) →
      env.orgsList currentUser.UID = .error (.httpErr status msg)) := by
  have hredirect := userSettingsMeRedirect_not_me env r (some currentUser) hme
  refine ⟨fun orgs => currentUserCanAdminOrg_self p _, ?_, ?_, ?_, ?_⟩
  · intro orgs horgs
    rw [heq] at horgs
    unfold userSettingsCommon
    simp [hcur, hredirect, hget, heq, horgs, userSettingsCommonDecide_ok]
  · intro e he hcode
    rw [heq] at he
    unfold userSettingsCommon
    simp [hcur, hredirect, hget, heq, he, hcode, userSettingsCommonDecide_ok]
  · intro e he hcode
    rw [heq] at he
    unfold userSettingsCommon
    simp [hcur, hredirect, hget, heq, he, hcode]
  · intro status msg herr
    unfold userSettingsCommon at herr
    cases horgs : env.orgsList currentUser.UID with
    | ok orgs =>
      rw [heq] at horgs
      simp [hcur, hredirect, hget, heq, horgs, userSettingsCommonDecide_ok] at herr
    | error e =>
      rw [heq] at horgs
      by_cases hcode : grpcCode (some e) = codes.Unimplemented
      · simp [hcur, hredirect, hget, heq, horgs, hcode, userSettingsCommonDecide_ok] at herr
      · simp [hcur, hredirect, hget, heq, horgs, hcode] at herr
        rw [herr]

/-- C11 at a concrete input: `alice` asking for her own settings while `Orgs.List`
returns the organization `acme`. -/
theorem userSettingsCommon_forbidden_unreachable_witness :
    userSettingsCommon sampleEnv (settingsRequest (some alice) "alice") =
      ⟨alice, some ⟨aliceUser, aliceUser :: [(⟨acmeOrg⟩ : Org)].map (fun org => org.User)⟩,
        none, [.getUser, .orgsList alice.UID 100]⟩ :=
  (userSettingsCommon_forbidden_unreachable sampleEnv (settingsRequest (some alice) "alice")
    alice aliceUser alice rfl
    (fun s h => by
      have h2 : (Except.ok ⟨"alice", 0⟩ : Except Error UserSpec) = .ok s := h
      cases h2
      decide)
    rfl rfl).2.1 [⟨acmeOrg⟩] rfl

end App

end Sourcegraph
